import Mathlib

/-!
Verification of the STK500v2 minified bootloader (`stk500boot.c`).

The definitions below are a shallow embedding of the bootloader's frame
receiver, frame transmitter, command interpreter, flash programmer and
boot-decision logic.  Machine integers are modelled as `Nat` with explicit
`% 2^w` at the points where the C source relies on fixed-width wrap-around
(`uint16_t` message sizes and buffer indices, `uint32_t` addresses).
Hardware effects (UART bytes, flash reads, page erases/fills/writes,
buffer stores) are reified as explicit inputs, outputs and write traces.
-/

/-! ### Receive state machine states (`stk500boot.c` lines 149-156) -/

def ST_START : Nat := 0
def ST_GET_SEQ_NUM : Nat := 1
def ST_MSG_SIZE_1 : Nat := 2
def ST_MSG_SIZE_2 : Nat := 3
def ST_GET_TOKEN : Nat := 4
def ST_GET_DATA : Nat := 5
def ST_GET_CHECK : Nat := 6
def ST_PROCESS : Nat := 7

/-! ### Protocol constants.

Modelled from the spec: the repository's `command.h` (included at line 27 of
`stk500boot.c`) is not part of the sources given here; the values below are
the protocol-family-fixed constants of the STK500v2 command header that the
spec refers to in section 6 ("values are protocol-family-fixed constants"). -/

/-- Modelled from the spec: frame start marker byte of the STK500v2 wire format. -/
def MESSAGE_START : Nat := 0x1B

/-- Modelled from the spec: frame token byte of the STK500v2 wire format. -/
def TOKEN : Nat := 0x0E

/-- Modelled from the spec: STK500v2 opcode constants from `command.h`. -/
def CMD_SIGN_ON : Nat := 0x01

/-- Modelled from the spec: STK500v2 opcode constant from `command.h`. -/
def CMD_SET_PARAMETER : Nat := 0x02

/-- Modelled from the spec: STK500v2 opcode constant from `command.h`. -/
def CMD_GET_PARAMETER : Nat := 0x03

/-- Modelled from the spec: STK500v2 opcode constant from `command.h`. -/
def CMD_LOAD_ADDRESS : Nat := 0x06

/-- Modelled from the spec: STK500v2 opcode constant from `command.h`. -/
def CMD_ENTER_PROGMODE_ISP : Nat := 0x10

/-- Modelled from the spec: STK500v2 opcode constant from `command.h`. -/
def CMD_LEAVE_PROGMODE_ISP : Nat := 0x11

/-- Modelled from the spec: STK500v2 opcode constant from `command.h`. -/
def CMD_CHIP_ERASE_ISP : Nat := 0x12

/-- Modelled from the spec: STK500v2 opcode constant from `command.h`. -/
def CMD_PROGRAM_FLASH_ISP : Nat := 0x13

/-- Modelled from the spec: STK500v2 opcode constant from `command.h`. -/
def CMD_READ_FLASH_ISP : Nat := 0x14

/-- Modelled from the spec: STK500v2 opcode constant from `command.h`. -/
def CMD_READ_FUSE_ISP : Nat := 0x18

/-- Modelled from the spec: STK500v2 opcode constant from `command.h`. -/
def CMD_READ_LOCK_ISP : Nat := 0x1A

/-- Modelled from the spec: STK500v2 opcode constant from `command.h`. -/
def CMD_READ_SIGNATURE_ISP : Nat := 0x1B

/-- Modelled from the spec: STK500v2 opcode constant from `command.h`. -/
def CMD_SPI_MULTI : Nat := 0x1D

/-- Modelled from the spec: STK500v2 status constant from `command.h`. -/
def STATUS_CMD_OK : Nat := 0x00

/-- Modelled from the spec: STK500v2 status constant from `command.h`. -/
def STATUS_CMD_FAILED : Nat := 0xC0

/-- Modelled from the spec: STK500v2 parameter id from `command.h`. -/
def PARAM_BUILD_NUMBER_LOW : Nat := 0x80

/-- Modelled from the spec: STK500v2 parameter id from `command.h`. -/
def PARAM_BUILD_NUMBER_HIGH : Nat := 0x81

/-- Modelled from the spec: STK500v2 parameter id from `command.h`. -/
def PARAM_HW_VER : Nat := 0x90

/-- Modelled from the spec: STK500v2 parameter id from `command.h`. -/
def PARAM_SW_MAJOR : Nat := 0x91

/-- Modelled from the spec: STK500v2 parameter id from `command.h`. -/
def PARAM_SW_MINOR : Nat := 0x92

/-! ### Build configuration constants (`stk500boot.c` lines 68-109).

The device-specific values (`FLASHEND`, `SPM_PAGESIZE`, `SIGNATURE_BYTES`)
are those of the primary ATmega2560 build target (Makefile target
`mega2560`). -/

def CONFIG_PARAM_BUILD_NUMBER_LOW : Nat := 0
def CONFIG_PARAM_BUILD_NUMBER_HIGH : Nat := 0
def CONFIG_PARAM_HW_VER : Nat := 0x0F
def CONFIG_PARAM_SW_MAJOR : Nat := 2
def CONFIG_PARAM_SW_MINOR : Nat := 0x0A

/-- Flash end byte address of the ATmega2560 (256 KiB of flash). -/
def FLASHEND : Nat := 0x3FFFF

/-- `BOOTSIZE` with SPI-multi support compiled in (`stk500boot.c` line 89). -/
def BOOTSIZE : Nat := 2048

/-- `APP_END  ( FLASHEND - ( 2U * BOOTSIZE ) + 1U )` (`stk500boot.c` line 94). -/
def APP_END : Nat := FLASHEND - 2 * BOOTSIZE + 1

/-- Flash page size in bytes of the ATmega2560. -/
def SPM_PAGESIZE : Nat := 256

/-- `SIGNATURE_BYTES` for the ATmega2560 (`stk500boot.c` line 102). -/
def SIGNATURE_BYTES : Nat := 0x1E9801

/-- Receive-buffer capacity: `uint8_t msgBuffer[285]` (`stk500boot.c` line 405). -/
def MSG_BUFFER_SIZE : Nat := 285

/-! ### Frame receiver (`recieveData`, `stk500boot.c` lines 313-378).

The local variables of `recieveData` become the fields of `RecvState`;
stores into the caller's 285-byte `msgBuffer` are reified as the `writes`
trace of `(index, value)` pairs in program order.  `i` and `length` are
`uint16_t`, `checksum` is a `uint8_t` updated only by exclusive-or. -/

structure RecvState where
  msgParseState : Nat
  checksum : Nat
  i : Nat
  length : Nat
  seqNum : Nat
  writes : List (Nat × Nat)
deriving Repr, DecidableEq

/-- State at entry of `recieveData`: `checksum = 0`, `i = 0`, `length = 0`,
`msgParseState = ST_START`; no buffer store has happened yet.  `seqNum`
starts at 0 as in `main` (line 406). -/
def recvInit : RecvState :=
  { msgParseState := ST_START, checksum := 0, i := 0, length := 0,
    seqNum := 0, writes := [] }

/-- One iteration of the `switch (msgParseState)` of `recieveData` on the
received byte `c`. -/
def recieveStep (s : RecvState) (c : Nat) : RecvState :=
  if s.msgParseState = ST_START then
    if c = MESSAGE_START then
      { s with msgParseState := ST_GET_SEQ_NUM, checksum := MESSAGE_START ^^^ 0 }
    else s
  else if s.msgParseState = ST_GET_SEQ_NUM then
    { s with seqNum := c, msgParseState := ST_MSG_SIZE_1, checksum := s.checksum ^^^ c }
  else if s.msgParseState = ST_MSG_SIZE_1 then
    { s with length := c <<< 8, msgParseState := ST_MSG_SIZE_2, checksum := s.checksum ^^^ c }
  else if s.msgParseState = ST_MSG_SIZE_2 then
    { s with length := s.length ||| c, msgParseState := ST_GET_TOKEN, checksum := s.checksum ^^^ c }
  else if s.msgParseState = ST_GET_TOKEN then
    if c = TOKEN then
      { s with msgParseState := ST_GET_DATA, checksum := s.checksum ^^^ c, i := 0 }
    else
      { s with msgParseState := ST_START }
  else if s.msgParseState = ST_GET_DATA then
    let s' := { s with writes := s.writes ++ [(s.i, c)],
                       checksum := s.checksum ^^^ c,
                       i := (s.i + 1) % 65536 }
    if s'.i = s.length then { s' with msgParseState := ST_GET_CHECK } else s'
  else if s.msgParseState = ST_GET_CHECK then
    if c = s.checksum then { s with msgParseState := ST_PROCESS }
    else { s with msgParseState := ST_START }
  else s

/-- State of the receive machine after consuming a whole byte sequence
(no early exit; `ST_PROCESS` is a sink state of `recieveStep`). -/
def recieveSteps (s : RecvState) (input : List Nat) : RecvState :=
  input.foldl recieveStep s

/-- The `do ... while (msgParseState != ST_PROCESS)` loop of `recieveData`:
consume bytes until the state machine reaches `ST_PROCESS`, returning the
final state; `none` models blocking forever in `recieveChar` because the
input was exhausted before a message was delivered. -/
def recieveRun : RecvState → List Nat → Option RecvState
  | _, [] => none
  | s, c :: rest =>
    let s' := recieveStep s c
    if s'.msgParseState = ST_PROCESS then some s' else recieveRun s' rest

/-- Write trace of storing the bytes of `data` at consecutive indices
starting at `j` (the receiver's data phase when no index wrap occurs). -/
def indexed : Nat → List Nat → List (Nat × Nat)
  | _, [] => []
  | j, c :: rest => (j, c) :: indexed (j + 1) rest

/-! ### Frame transmitter (`main`, `stk500boot.c` lines 611-637).

The response is sent as start marker, sequence number, the two length
bytes (big-endian), token, the `msgLength` payload bytes, then the running
exclusive-or of everything sent so far. -/

/-- Running exclusive-or of a byte list, seeded with `a`. -/
def xorFold (a : Nat) (l : List Nat) : Nat :=
  l.foldl (fun x c => x ^^^ c) a

/-- Byte stream produced by the transmit section of `main` for sequence
number `seq` and response payload `payload` (whose length is `msgLength`). -/
def encodeFrame (seq : Nat) (payload : List Nat) : List Nat :=
  let msgLength := payload.length
  let hdr := [MESSAGE_START, seq, (msgLength >>> 8) &&& 0xFF, msgLength &&& 0xFF, TOKEN]
  hdr ++ payload ++ [xorFold 0 (hdr ++ payload)]

/-! ### Flash read path (`readDevice`, `stk500boot.c` lines 201-219).

`pgm_read_word_far` is reified as a function `flash : Nat → Nat` from byte
addresses to 16-bit words; stores through `p` are reified as a trace of
`(position, value)` pairs, positions counted from the start of `msgBuffer`.
`msgSize` is a `uint16_t`, so the do-while decrement `msgSize -= 2` wraps
modulo `2^16`; the loop runs until `msgSize` becomes 0 and never checks
before the first iteration.  The `fuel` argument bounds the number of
remaining iterations only so that the function is total in Lean: `none`
means the loop had not terminated after `fuel` iterations (65536 iterations
is an upper bound for every terminating run, since `msgSize` is a
`uint16_t` decreasing by 2 modulo `2^16`). -/

def readLoop (flash : Nat → Nat) :
    Nat → Nat → Nat → Nat → List (Nat × Nat) → Option (Nat × List (Nat × Nat))
  | 0, _, _, _, _ => none
  | fuel + 1, addr, msgSize, pos, ws =>
    let data := flash addr
    let ws := ws ++ [(pos, data % 256), (pos + 1, (data >>> 8) % 256)]
    let addr := addr + 2
    let msgSize := (msgSize + 65534) % 65536
    if msgSize = 0 then some (addr, ws)
    else readLoop flash fuel addr msgSize (pos + 2) ws

/-- `readDevice(programAddress, msgSize, p)` with `p = msgBuffer + pos`:
stores `STATUS_CMD_OK` at `pos`, then runs the word-read do-while loop.
Returns the final `*programAddress` and the store trace, or `none` if the
loop never terminates (odd `msgSize`). -/
def readDevice (flash : Nat → Nat) (addr msgSize pos : Nat) :
    Option (Nat × List (Nat × Nat)) :=
  readLoop flash 65536 addr msgSize (pos + 1) [(pos, STATUS_CMD_OK)]

/-- Store trace produced by `k` iterations of the `readDevice` loop reading
words at `addr, addr+2, ...` into positions `pos, pos+1, pos+2, ...`. -/
def readChunk (flash : Nat → Nat) : Nat → Nat → Nat → List (Nat × Nat)
  | _, _, 0 => []
  | addr, pos, k + 1 =>
    (pos, flash addr % 256) :: (pos + 1, (flash addr >>> 8) % 256) ::
      readChunk flash (addr + 2) (pos + 2) k

/-! ### Flash programmer (`programDevice`, `stk500boot.c` lines 221-244).

The hardware erase/fill/write operations are reified in the result:
`pageErase` is the address passed to `boot_page_erase` (or `none` when the
guard `*eraseAddress < APP_END` failed), `fill` carries the final
`*programAddress` together with the `boot_page_fill` trace (or `none` when
the do-while fill loop never terminates), and `pageWriteAt` is the address
passed to `boot_page_write` (the entry value of `*programAddress`). -/

structure ProgDevResult where
  pageErase : Option Nat
  eraseAddress : Nat
  fill : Option (Nat × List (Nat × Nat))
  pageWriteAt : Nat
deriving Repr

/-- The fill do-while loop of `programDevice`: reads the two bytes of each
word from `buffer` (little-endian, `word` is a `uint16_t`), stages it at
`*programAddress`, advances by 2 and decrements the `uint16_t` `msgSize`
by 2 with wrap-around, until `msgSize` is 0.  Fuel as in `readLoop`. -/
def fillLoop (buffer : Nat → Nat) :
    Nat → Nat → Nat → Nat → List (Nat × Nat) → Option (Nat × List (Nat × Nat))
  | 0, _, _, _, _ => none
  | fuel + 1, addr, msgSize, bufIdx, fills =>
    let word := (buffer bufIdx + (buffer (bufIdx + 1) <<< 8)) % 65536
    let fills := fills ++ [(addr, word)]
    let addr := addr + 2
    let msgSize := (msgSize + 65534) % 65536
    if msgSize = 0 then some (addr, fills)
    else fillLoop buffer fuel addr msgSize (bufIdx + 2) fills

/-- `programDevice(programAddress, eraseAddress, msgSize, buffer)`. -/
def programDevice (programAddress eraseAddress msgSize : Nat)
    (buffer : Nat → Nat) : ProgDevResult :=
  let tempAddress := programAddress
  let erased := decide (eraseAddress < APP_END)
  { pageErase := if erased then some eraseAddress else none
    eraseAddress := if erased then eraseAddress + SPM_PAGESIZE else eraseAddress
    fill := fillLoop buffer 65536 programAddress msgSize 0 []
    pageWriteAt := tempAddress }

/-! ### Parameter lookup (`getParameter`, `stk500boot.c` lines 286-311). -/

def getParameter (cmd : Nat) : Nat :=
  if cmd = PARAM_BUILD_NUMBER_LOW then CONFIG_PARAM_BUILD_NUMBER_LOW
  else if cmd = PARAM_BUILD_NUMBER_HIGH then CONFIG_PARAM_BUILD_NUMBER_HIGH
  else if cmd = PARAM_HW_VER then CONFIG_PARAM_HW_VER
  else if cmd = PARAM_SW_MAJOR then CONFIG_PARAM_SW_MAJOR
  else if cmd = PARAM_SW_MINOR then CONFIG_PARAM_SW_MINOR
  else 0

/-! ### Application start (`appStart`, `stk500boot.c` lines 380-398). -/

/-- `appStart` jumps to address 0 exactly when the first flash word is not
the erased pattern `0xFFFF`; otherwise it returns to its caller. -/
def appStartJumps (word0 : Nat) : Bool :=
  word0 != 0xFFFF

/-! ### Command interpreter (`main`, `stk500boot.c` lines 459-639).

The session-scoped locals of `main` form `Sess`; hardware constant sources
(`pgm_read_word_far`, `boot_lock_fuse_bits_get`) form `Hw`; the shared
285-byte request/response buffer `msgBuffer` is a function `Nat → Nat`
updated in place.  One loop iteration after a message has been delivered
is `interpret`: it dispatches on `msgBuffer[0]` and produces the updated
session, the response length `msgLength` and the updated buffer, or `none`
when the handler never terminates (non-terminating `readDevice` /
`programDevice` loop).  The C locals `size` (the big-endian size decoded
from the first two operand bytes) are inlined at their use sites. -/

structure Sess where
  address : Nat
  eraseAddress : Nat
  ispProgram : Nat
deriving Repr, DecidableEq

/-- Session state at entry of `main`'s loop (`stk500boot.c` lines 407-411). -/
def sessInit : Sess :=
  { address := 0, eraseAddress := 0, ispProgram := 0 }

structure Reply where
  sess : Sess
  msgLength : Nat
  buf : Nat → Nat

/-- Single store `buffer[i] = v`. -/
def updateBuf (b : Nat → Nat) (i v : Nat) : Nat → Nat :=
  fun j => if j = i then v else b j

/-- Replay a store trace into the buffer, in program order. -/
def applyWrites (b : Nat → Nat) (ws : List (Nat × Nat)) : Nat → Nat :=
  ws.foldl (fun b w => updateBuf b w.1 w.2) b

/-- `CMD_LOAD_ADDRESS` address computation for extended-addressing targets
(`RAMPZ` defined, `stk500boot.c` lines 491-492): the top payload byte is
placed at bits 24-31 and only the low 24 bits of the word address are
doubled by the `<< 1`.  All arithmetic is `uint32_t`. -/
def loadAddress (b1 b2 b3 b4 : Nat) : Nat :=
  ((b1 <<< 24) ||| ((((b2 <<< 16) ||| (b3 <<< 8) ||| b4) <<< 1) % 4294967296))
    % 4294967296

/-- `CMD_LOAD_ADDRESS` address computation for small targets (no `RAMPZ`,
`stk500boot.c` line 494).  The expression `((msgBuffer[3] << 8) | msgBuffer[4]) << 1`
is evaluated in the AVR's 16-bit `int` and then converted to `uint32_t`,
so it wraps modulo `2^16` and is sign-extended when the wrapped value has
bit 15 set (avr-gcc two's-complement behaviour). -/
def loadAddressSmall (b3 b4 : Nat) : Nat :=
  let v := (((b3 <<< 8) ||| b4) <<< 1) % 65536
  if v < 32768 then v else 0xFFFF0000 + v

/-- Constant-source side of the hardware: flash words by byte address and
the four `boot_lock_fuse_bits_get` results. -/
structure Hw where
  flash : Nat → Nat
  lockBits : Nat
  fuseLow : Nat
  fuseHigh : Nat
  fuseExt : Nat

/-- Signature byte selection shared by `CMD_READ_SIGNATURE_ISP` and
`CMD_SPI_MULTI` (`stk500boot.c` lines 516-524 and 567-576). -/
def signatureByte (idx : Nat) : Nat :=
  if idx = 0 then (SIGNATURE_BYTES >>> 16) &&& 0xFF
  else if idx = 1 then (SIGNATURE_BYTES >>> 8) &&& 0xFF
  else SIGNATURE_BYTES &&& 0xFF

/-- One iteration of `main`'s command dispatch (`stk500boot.c` lines
462-609) on a delivered message in `buf`. -/
def interpret (hw : Hw) (s : Sess) (buf : Nat → Nat) : Option Reply :=
  if buf 0 = CMD_SIGN_ON then
    some { sess := s, msgLength := 11,
           buf := applyWrites buf
             [(1, STATUS_CMD_OK), (2, 8), (3, 65), (4, 86), (5, 82),
              (6, 73), (7, 83), (8, 80), (9, 95), (10, 50)] }
  else if buf 0 = CMD_GET_PARAMETER then
    some { sess := s, msgLength := 3,
           buf := applyWrites buf [(1, STATUS_CMD_OK), (2, getParameter (buf 1))] }
  else if buf 0 = CMD_LEAVE_PROGMODE_ISP ∨ buf 0 = CMD_SET_PARAMETER ∨
          buf 0 = CMD_ENTER_PROGMODE_ISP then
    some { sess := { s with ispProgram :=
                       if buf 0 = CMD_LEAVE_PROGMODE_ISP then 1 else s.ispProgram },
           msgLength := 2, buf := updateBuf buf 1 STATUS_CMD_OK }
  else if buf 0 = CMD_LOAD_ADDRESS then
    some { sess := { s with address := loadAddress (buf 1) (buf 2) (buf 3) (buf 4) },
           msgLength := 2, buf := updateBuf buf 1 STATUS_CMD_OK }
  else if buf 0 = CMD_PROGRAM_FLASH_ISP then
    let r := programDevice s.address s.eraseAddress (((buf 1) <<< 8) ||| buf 2)
      (fun k => buf (10 + k))
    match r.fill with
    | none => none
    | some (addr', _) =>
      some { sess := { s with address := addr', eraseAddress := r.eraseAddress },
             msgLength := 2, buf := updateBuf buf 1 STATUS_CMD_OK }
  else if buf 0 = CMD_READ_FLASH_ISP then
    match readDevice hw.flash s.address (((buf 1) <<< 8) ||| buf 2) 1 with
    | none => none
    | some (addr', ws) =>
      some { sess := { s with address := addr' },
             msgLength := ((((buf 1) <<< 8) ||| buf 2) + 3) % 65536,
             buf := applyWrites buf ws }
  else if buf 0 = CMD_READ_SIGNATURE_ISP then
    some { sess := s, msgLength := 4,
           buf := applyWrites buf
             [(1, STATUS_CMD_OK), (2, signatureByte (buf 4)), (3, STATUS_CMD_OK)] }
  else if buf 0 = CMD_READ_LOCK_ISP then
    some { sess := s, msgLength := 4,
           buf := applyWrites buf
             [(1, STATUS_CMD_OK), (2, hw.lockBits), (3, STATUS_CMD_OK)] }
  else if buf 0 = CMD_READ_FUSE_ISP then
    let fuseBits :=
      if buf 2 = 0x50 then
        if buf 3 = 0x08 then hw.fuseExt else hw.fuseLow
      else hw.fuseHigh
    some { sess := s, msgLength := 4,
           buf := applyWrites buf
             [(1, STATUS_CMD_OK), (2, fuseBits), (3, STATUS_CMD_OK)] }
  else if buf 0 = CMD_SPI_MULTI then
    let answerByte :=
      if buf 4 = 0x30 then signatureByte (buf 6)
      else if (buf 4) &&& 0x50 ≠ 0 then
        if buf 4 = 0x50 then hw.fuseLow
        else if buf 4 = 0x58 then hw.fuseHigh
        else 0
      else 0
    some { sess := s, msgLength := 7,
           buf := applyWrites buf
             [(1, STATUS_CMD_OK), (2, 0), (3, buf 4), (4, 0),
              (5, answerByte), (6, STATUS_CMD_OK)] }
  else
    some { sess := { s with eraseAddress :=
                       if buf 0 = CMD_CHIP_ERASE_ISP then 0 else s.eraseAddress },
           msgLength := 2, buf := updateBuf buf 1 STATUS_CMD_FAILED }

/-- Request buffer holding the bytes of `l` from index 0 on (unset bytes
model whatever the shared buffer previously held; zero here). -/
def bufOf (l : List Nat) : Nat → Nat :=
  fun i => l.getD i 0

/-- A concrete hardware instance: erased flash, all query bytes zero. -/
def hw0 : Hw :=
  { flash := fun _ => 0, lockBits := 0, fuseLow := 0, fuseHigh := 0, fuseExt := 0 }

/-! ### Boot decision (`main`, `stk500boot.c` lines 413-457 and 640-656). -/

inductive BootEvent where
  | wdtAppJump
  | serialInit
  | bootWait
  | protocolLoop
  | appJumpExit
deriving Repr, DecidableEq

/-- The boot path taken when the watchdog shortcut was not taken: serial
initialization, the bounded wait for host activity, then either the
protocol loop (a byte arrived in time) or not, and finally the application
jump attempt (taken only when flash word 0 is not erased). -/
def bootRest (word0 : Nat) (hostActive : Bool) : List BootEvent :=
  [BootEvent.serialInit, BootEvent.bootWait] ++
    (if hostActive then [BootEvent.protocolLoop] else []) ++
    (if appStartJumps word0 then [BootEvent.appJumpExit] else [])

/-- Events of `main` after reset as a function of the captured reset cause,
the first flash word, and whether a host byte arrives before the boot
timeout.  `resetSource & (1 << WDRF)` with `WDRF = 3` takes the shortcut
call of `appStart` at lines 436-438; when that jump is not taken (erased
flash word 0) `appStart` returns and `main` falls through into the normal
serial flow. -/
def bootTrace (resetSource word0 : Nat) (hostActive : Bool) : List BootEvent :=
  if resetSource &&& (1 <<< 3) ≠ 0 then
    if appStartJumps word0 then [BootEvent.wdtAppJump]
    else bootRest word0 hostActive
  else bootRest word0 hostActive

/-! ### Arithmetic helper lemmas -/

/-- Packing a shifted value with a small value: the bitwise or used by the
receiver and the interpreter to reassemble big-endian fields is an
addition when the low field fits below the shift. -/
theorem shiftLeft_or_eq_add (a b k : Nat) (hb : b < 2 ^ k) :
    (a <<< k) ||| b = a * 2 ^ k + b := by
  rw [Nat.shiftLeft_eq, Nat.mul_comm, ← Nat.mul_add_lt_is_or hb, Nat.mul_comm]

/-- Low byte extraction. -/
theorem and_255_eq_mod (x : Nat) : x &&& 0xFF = x % 256 := by
  have h := Nat.and_pow_two_sub_one_eq_mod x 8
  norm_num at h
  exact h

/-- Reassembling a 16-bit length from the two bytes the transmitter sends
recovers the length. -/
theorem len_reassemble (L : Nat) (h : L < 65536) :
    (((L >>> 8) &&& 0xFF) <<< 8) ||| (L &&& 0xFF) = L := by
  have h1 : L >>> 8 = L / 256 := Nat.shiftRight_eq_div_pow L 8
  have h2 : L / 256 < 256 := by omega
  have h3 : (L / 256) &&& 0xFF = L / 256 := by
    rw [and_255_eq_mod, Nat.mod_eq_of_lt h2]
  rw [h1, h3, and_255_eq_mod, shiftLeft_or_eq_add (L / 256) (L % 256) 8 (by omega)]
  omega

theorem xorFold_append (a : Nat) (l1 l2 : List Nat) :
    xorFold a (l1 ++ l2) = xorFold (xorFold a l1) l2 := by
  simp [xorFold, List.foldl_append]

theorem xorFold_cons (a c : Nat) (l : List Nat) :
    xorFold a (c :: l) = xorFold (a ^^^ c) l := rfl

theorem xorFold_nil (a : Nat) : xorFold a [] = a := rfl

/-! ### Lemmas about the `indexed` write trace -/

theorem indexed_length (j : Nat) (l : List Nat) : (indexed j l).length = l.length := by
  induction l generalizing j with
  | nil => rfl
  | cons c rest ih => simp [indexed, ih]

theorem indexed_map_snd (j : Nat) (l : List Nat) :
    (indexed j l).map Prod.snd = l := by
  induction l generalizing j with
  | nil => rfl
  | cons c rest ih => simp [indexed, ih]

theorem indexed_map_fst (j : Nat) (l : List Nat) :
    (indexed j l).map Prod.fst = List.range' j l.length := by
  induction l generalizing j with
  | nil => rfl
  | cons c rest ih => simp [indexed, ih, List.range'_succ]

theorem indexed_append (j : Nat) (l1 l2 : List Nat) :
    indexed j (l1 ++ l2) = indexed j l1 ++ indexed (j + l1.length) l2 := by
  induction l1 generalizing j with
  | nil => simp [indexed]
  | cons c rest ih => simp [indexed, ih]; ring_nf

/-! ### Receiver data-phase lemmas -/

/-- While the incremented index stays below the declared length (and below
the `uint16_t` wrap), the `ST_GET_DATA` state consumes every byte, stores
it at the running index and folds it into the checksum. -/
theorem recieveSteps_data_stay (data : List Nat) :
    ∀ j cs seq w L, j + data.length ≤ 65535 →
      (∀ m, j < m → m ≤ j + data.length → m ≠ L) →
      recieveSteps ⟨ST_GET_DATA, cs, j, L, seq, w⟩ data =
        ⟨ST_GET_DATA, xorFold cs data, j + data.length, L, seq, w ++ indexed j data⟩ := by
  induction data with
  | nil => intro j cs seq w L _ _; simp [recieveSteps, xorFold, indexed]
  | cons c rest ih =>
    intro j cs seq w L hle hm
    simp only [List.length_cons] at hle
    have hj1 : (j + 1) % 65536 = j + 1 := by omega
    have hne : j + 1 ≠ L := hm (j + 1) (by omega) (by simp only [List.length_cons]; omega)
    have hstep : recieveStep ⟨ST_GET_DATA, cs, j, L, seq, w⟩ c =
        ⟨ST_GET_DATA, cs ^^^ c, j + 1, L, seq, w ++ [(j, c)]⟩ := by
      simp [recieveStep, ST_GET_DATA, ST_START, ST_GET_SEQ_NUM, ST_MSG_SIZE_1,
        ST_MSG_SIZE_2, ST_GET_TOKEN, hj1, hne]
    have hrec := ih (j + 1) (cs ^^^ c) seq (w ++ [(j, c)]) L
      (by omega)
      (by intro m h1 h2; exact hm m (by omega) (by simp only [List.length_cons]; omega))
    simp only [recieveSteps, List.foldl_cons] at hrec ⊢
    rw [hstep, hrec]
    simp only [List.length_cons, xorFold_cons, indexed, List.append_assoc,
      List.singleton_append, RecvState.mk.injEq, and_true, true_and]
    omega

/-- With a declared length of 0, the data state runs until the `uint16_t`
index wraps: consuming bytes number `j+1 .. 65536` (the last one at index
65535) reaches `ST_GET_CHECK` exactly when the index wraps back to 0. -/
theorem recieveSteps_data_wrap0 (data : List Nat) :
    ∀ j cs seq w, data ≠ [] → j + data.length = 65536 →
      recieveSteps ⟨ST_GET_DATA, cs, j, 0, seq, w⟩ data =
        ⟨ST_GET_CHECK, xorFold cs data, 0, 0, seq, w ++ indexed j data⟩ := by
  induction data with
  | nil => intro j cs seq w hne _; exact absurd rfl hne
  | cons c rest ih =>
    intro j cs seq w _ hlen
    simp only [List.length_cons] at hlen
    cases rest with
    | nil =>
      have hj : j = 65535 := by simp at hlen; omega
      subst hj
      simp [recieveSteps, recieveStep, ST_GET_DATA, ST_START, ST_GET_SEQ_NUM,
        ST_MSG_SIZE_1, ST_MSG_SIZE_2, ST_GET_TOKEN, xorFold, indexed]
    | cons c2 rest2 =>
      have hj1 : (j + 1) % 65536 = j + 1 := by simp at hlen; omega
      have hne0 : j + 1 ≠ 0 := by omega
      have hstep : recieveStep ⟨ST_GET_DATA, cs, j, 0, seq, w⟩ c =
          ⟨ST_GET_DATA, cs ^^^ c, j + 1, 0, seq, w ++ [(j, c)]⟩ := by
        simp [recieveStep, ST_GET_DATA, ST_START, ST_GET_SEQ_NUM, ST_MSG_SIZE_1,
          ST_MSG_SIZE_2, ST_GET_TOKEN, hj1, hne0]
      have hrec := ih (j + 1) (cs ^^^ c) seq (w ++ [(j, c)]) (by simp)
        (by simp at hlen ⊢; omega)
      simp only [recieveSteps, List.foldl_cons] at hrec ⊢
      rw [hstep, hrec]
      simp [xorFold_cons, indexed]

/-- Completing the data phase in the blocking receive loop: when the
declared length is reached with the last byte of `data`, the machine moves
to `ST_GET_CHECK` and goes on reading from `rest`. -/
theorem recieveRun_data_complete (data : List Nat) :
    ∀ j cs seq w rest L, data ≠ [] → j + data.length = L → L ≤ 65535 →
      recieveRun ⟨ST_GET_DATA, cs, j, L, seq, w⟩ (data ++ rest) =
        recieveRun ⟨ST_GET_CHECK, xorFold cs data, L, L, seq, w ++ indexed j data⟩ rest := by
  induction data with
  | nil => intro j cs seq w rest L hne _ _; exact absurd rfl hne
  | cons c rest2 ih =>
    intro j cs seq w rest L _ hlen hL
    simp only [List.length_cons] at hlen
    cases rest2 with
    | nil =>
      have hj : j + 1 = L := by simp at hlen; omega
      have hj1 : (j + 1) % 65536 = L := by omega
      simp only [List.singleton_append, recieveRun]
      have hstep : recieveStep ⟨ST_GET_DATA, cs, j, L, seq, w⟩ c =
          ⟨ST_GET_CHECK, cs ^^^ c, L, L, seq, w ++ [(j, c)]⟩ := by
        simp [recieveStep, ST_GET_DATA, ST_START, ST_GET_SEQ_NUM, ST_MSG_SIZE_1,
          ST_MSG_SIZE_2, ST_GET_TOKEN, hj1]
      rw [hstep]
      simp [ST_GET_CHECK, ST_PROCESS, xorFold, indexed]
    | cons c2 rest3 =>
      have hj1 : (j + 1) % 65536 = j + 1 := by simp at hlen; omega
      have hne : j + 1 ≠ L := by simp at hlen; omega
      have hstep : recieveStep ⟨ST_GET_DATA, cs, j, L, seq, w⟩ c =
          ⟨ST_GET_DATA, cs ^^^ c, j + 1, L, seq, w ++ [(j, c)]⟩ := by
        simp [recieveStep, ST_GET_DATA, ST_START, ST_GET_SEQ_NUM, ST_MSG_SIZE_1,
          ST_MSG_SIZE_2, ST_GET_TOKEN, hj1, hne]
      have hrec := ih (j + 1) (cs ^^^ c) seq (w ++ [(j, c)]) rest L (by simp)
        (by simp at hlen ⊢; omega) hL
      simp only [List.cons_append, List.append_eq, recieveRun] at hrec ⊢
      rw [hstep, hrec]
      simp [xorFold_cons, indexed, ST_GET_DATA, ST_PROCESS]

/-- Processing the five header bytes of a well-formed frame: start marker,
sequence number, the two big-endian length bytes and the token move the
machine into `ST_GET_DATA` with the reassembled length and a reset index. -/
theorem recieveSteps_header (seq hi lo : Nat) (rest : List Nat) :
    recieveSteps recvInit (MESSAGE_START :: seq :: hi :: lo :: TOKEN :: rest) =
      recieveSteps ⟨ST_GET_DATA, MESSAGE_START ^^^ 0 ^^^ seq ^^^ hi ^^^ lo ^^^ TOKEN,
        0, (hi <<< 8) ||| lo, seq, []⟩ rest := rfl

/-- Header processing, blocking-loop version. -/
theorem recieveRun_header (seq hi lo : Nat) (rest : List Nat) :
    recieveRun recvInit (MESSAGE_START :: seq :: hi :: lo :: TOKEN :: rest) =
      recieveRun ⟨ST_GET_DATA, MESSAGE_START ^^^ 0 ^^^ seq ^^^ hi ^^^ lo ^^^ TOKEN,
        0, (hi <<< 8) ||| lo, seq, []⟩ rest := rfl

/-- Claim C5: the blocking receiver, fed exactly the byte stream the
transmitter emits for sequence number `seq` and a nonempty payload of
length below `2^16`, delivers a message carrying the same sequence number
and storing exactly the payload bytes at indices `0..length-1`. -/
theorem decode_encode_roundtrip (seq : Nat) (payload : List Nat)
    (hne : payload ≠ []) (hlen : payload.length < 65536) :
    ∃ s, recieveRun recvInit (encodeFrame seq payload) = some s ∧
      s.msgParseState = ST_PROCESS ∧ s.seqNum = seq ∧
      s.writes.map Prod.snd = payload ∧
      s.writes.map Prod.fst = List.range' 0 payload.length := by
  have henc : encodeFrame seq payload =
      MESSAGE_START :: seq :: ((payload.length >>> 8) &&& 0xFF) ::
        (payload.length &&& 0xFF) :: TOKEN ::
        (payload ++ [xorFold 0 ([MESSAGE_START, seq, (payload.length >>> 8) &&& 0xFF,
          payload.length &&& 0xFF, TOKEN] ++ payload)]) := by
    simp [encodeFrame]
  rw [henc, recieveRun_header, len_reassemble payload.length hlen]
  rw [recieveRun_data_complete payload 0 _ seq [] _ payload.length hne (by omega) (by omega)]
  have hcs : xorFold 0 ([MESSAGE_START, seq, (payload.length >>> 8) &&& 0xFF,
      payload.length &&& 0xFF, TOKEN] ++ payload) =
      xorFold (MESSAGE_START ^^^ 0 ^^^ seq ^^^ ((payload.length >>> 8) &&& 0xFF) ^^^
        (payload.length &&& 0xFF) ^^^ TOKEN) payload := by
    rw [xorFold_append]
    simp [xorFold]
  rw [hcs]
  simp only [recieveRun, recieveStep, ST_GET_CHECK, ST_START, ST_GET_SEQ_NUM,
    ST_MSG_SIZE_1, ST_MSG_SIZE_2, ST_GET_TOKEN, ST_GET_DATA, ST_PROCESS]
  norm_num
  exact ⟨indexed_map_snd 0 payload, indexed_map_fst 0 payload⟩

/-- Witness for the round trip at a concrete message. -/
theorem decode_encode_roundtrip_witness :
    ([2, 3] : List Nat) ≠ [] ∧ ([2, 3] : List Nat).length < 65536 ∧
    ∃ s, recieveRun recvInit (encodeFrame 1 [2, 3]) = some s ∧
      s.msgParseState = ST_PROCESS ∧ s.seqNum = 1 ∧
      s.writes.map Prod.snd = [2, 3] ∧
      s.writes.map Prod.fst = List.range' 0 ([2, 3] : List Nat).length :=
  ⟨by simp, by simp, decode_encode_roundtrip 1 [2, 3] (by simp) (by simp)⟩

/-! ### Lemmas about the `readDevice` loop -/

/-- For a positive even remaining size `2*k` (with `k ≤ 32768` so that the
`uint16_t` value is reachable), the loop runs exactly `k` more iterations,
reads `k` words, advances the address by `2*k` and appends the
corresponding store trace. -/
theorem readLoop_even (flash : Nat → Nat) :
    ∀ k fuel addr pos w, 0 < k → k ≤ fuel → k ≤ 32768 →
      readLoop flash fuel addr (2 * k) pos w =
        some (addr + 2 * k, w ++ readChunk flash addr pos k) := by
  intro k
  induction k with
  | zero => intro fuel addr pos w h; omega
  | succ k ih =>
    intro fuel addr pos w _ hfuel hk
    cases fuel with
    | zero => omega
    | succ fuel =>
      by_cases hk0 : k = 0
      · subst hk0
        have hmod : (2 * 1 + 65534) % 65536 = 0 := by norm_num
        simp only [readLoop, hmod, if_pos]
        norm_num [readChunk]
      · have hmod : (2 * (k + 1) + 65534) % 65536 = 2 * k := by omega
        have hne : 2 * k ≠ 0 := by omega
        simp only [readLoop, hmod]
        rw [if_neg hne, ih fuel (addr + 2) (pos + 2)
          (w ++ [(pos, flash addr % 256), (pos + 1, (flash addr >>> 8) % 256)])
          (by omega) (by omega) (by omega)]
        simp [readChunk]
        omega

/-- One unfolding step of the read store trace. -/
theorem readChunk_succ (flash : Nat → Nat) (addr pos k : Nat) :
    readChunk flash addr pos (k + 1) =
      (pos, flash addr % 256) :: (pos + 1, (flash addr >>> 8) % 256) ::
        readChunk flash (addr + 2) (pos + 2) k := rfl

/-- A size of 0 wraps the `uint16_t` decrement: the do-while body runs
once, leaves a remaining size of 65534 and then runs for 32768 iterations
in total (fuel given as a successor so that the first unfolding step is
syntactic). -/
theorem readLoop_zero_aux (flash : Nat → Nat) :
    ∀ N addr pos w, 32767 ≤ N →
      readLoop flash (N + 1) addr 0 pos w =
        some (addr + 65536, w ++ readChunk flash addr pos 32768) := by
  intro N addr pos w hN
  have h1 : (0 + 65534) % 65536 = 2 * 32767 := by omega
  simp only [readLoop, h1]
  rw [if_neg (by omega), readLoop_even flash 32767 N (addr + 2) (pos + 2)
    (w ++ [(pos, flash addr % 256), (pos + 1, (flash addr >>> 8) % 256)])
    (by omega) (by omega) (by omega)]
  have hsucc : (32768 : Nat) = 32767 + 1 := by norm_num
  have hlist : (w ++ [(pos, flash addr % 256), (pos + 1, (flash addr >>> 8) % 256)]) ++
      readChunk flash (addr + 2) (pos + 2) 32767 = w ++ readChunk flash addr pos 32768 := by
    rw [hsucc, readChunk_succ flash addr pos 32767]
    simp
  exact congrArg some (Prod.ext (by omega) hlist)

/-- The full-fuel instance used by `readDevice` on a declared size of 0. -/
theorem readLoop_zero (flash : Nat → Nat) (addr pos : Nat) (w : List (Nat × Nat)) :
    readLoop flash 65536 addr 0 pos w =
      some (addr + 65536, w ++ readChunk flash addr pos 32768) := by
  have h2 : (65536 : Nat) = 65535 + 1 := by norm_num
  rw [h2]
  exact readLoop_zero_aux flash 65535 addr pos w (by norm_num)

/-- An odd remaining size never reaches 0 (the decrement by 2 modulo
`2^16` preserves parity), so the loop never terminates. -/
theorem readLoop_odd (flash : Nat → Nat) :
    ∀ fuel addr msgSize pos w, msgSize % 2 = 1 →
      readLoop flash fuel addr msgSize pos w = none := by
  intro fuel
  induction fuel with
  | zero => intro addr msgSize pos w _; rfl
  | succ fuel ih =>
    intro addr msgSize pos w hodd
    have hmod : ((msgSize + 65534) % 65536) % 2 = 1 := by omega
    simp only [readLoop]
    rw [if_neg (by omega)]
    exact ih _ _ _ _ hmod

/-- Positions of the stores of the read loop: `2*k` consecutive positions
from `pos` on. -/
theorem readChunk_map_fst (flash : Nat → Nat) :
    ∀ k addr pos, (readChunk flash addr pos k).map Prod.fst = List.range' pos (2 * k) := by
  intro k
  induction k with
  | zero => intro addr pos; rfl
  | succ k ih =>
    intro addr pos
    have h2 : 2 * (k + 1) = 2 * k + 1 + 1 := by omega
    simp [readChunk, ih, h2, List.range'_succ]

/-- Length of the read-loop store trace. -/
theorem readChunk_length (flash : Nat → Nat) :
    ∀ k addr pos, (readChunk flash addr pos k).length = 2 * k := by
  intro k
  induction k with
  | zero => intro addr pos; rfl
  | succ k ih =>
    intro addr pos
    simp [readChunk, ih]
    omega

/-- The read loop only appends to the store trace, and every appended
store is at position `pos` or later. -/
theorem readLoop_writes_shape (flash : Nat → Nat) :
    ∀ fuel addr msgSize pos w res,
      readLoop flash fuel addr msgSize pos w = some res →
      ∃ tail, res.2 = w ++ tail ∧ ∀ q ∈ tail, pos ≤ q.1 := by
  intro fuel
  induction fuel with
  | zero => intro addr msgSize pos w res h; exact absurd h (by simp [readLoop])
  | succ fuel ih =>
    intro addr msgSize pos w res h
    simp only [readLoop] at h
    by_cases h0 : (msgSize + 65534) % 65536 = 0
    · rw [if_pos h0] at h
      cases Option.some.inj h
      refine ⟨[(pos, flash addr % 256), (pos + 1, (flash addr >>> 8) % 256)], rfl, ?_⟩
      intro q hq
      simp only [List.mem_cons, List.mem_singleton, List.not_mem_nil, or_false] at hq
      rcases hq with rfl | rfl <;> simp
    · rw [if_neg h0] at h
      obtain ⟨t, ht, hge⟩ := ih _ _ _ _ _ h
      refine ⟨[(pos, flash addr % 256), (pos + 1, (flash addr >>> 8) % 256)] ++ t, ?_, ?_⟩
      · rw [ht, List.append_assoc]
      · intro q hq
        simp only [List.mem_append, List.mem_cons, List.mem_singleton,
          List.not_mem_nil, or_false] at hq
        rcases hq with (rfl | rfl) | h1
        · simp
        · simp
        · have := hge q h1; omega

/-- Replaying an empty trace. -/
theorem applyWrites_nil (b : Nat → Nat) : applyWrites b [] = b := rfl

/-- Replaying a concatenated trace. -/
theorem applyWrites_append (b : Nat → Nat) (w1 w2 : List (Nat × Nat)) :
    applyWrites b (w1 ++ w2) = applyWrites (applyWrites b w1) w2 := by
  simp [applyWrites, List.foldl_append]

/-- A trace that never stores at `j` leaves index `j` unchanged. -/
theorem applyWrites_untouched (j : Nat) :
    ∀ ws (b : Nat → Nat), (∀ q ∈ ws, q.1 ≠ j) → applyWrites b ws j = b j := by
  intro ws
  induction ws with
  | nil => intro b _; rfl
  | cons q rest ih =>
    intro b hq
    have hj : q.1 ≠ j := hq q (by simp)
    have hstep : applyWrites b (q :: rest) = applyWrites (updateBuf b q.1 q.2) rest := rfl
    rw [hstep, ih _ (fun p hp => hq p (by simp [hp]))]
    simp [updateBuf, Ne.symm hj]

/-- Membership in the trace of storing a replicated byte. -/
theorem mem_indexed_replicate (c : Nat) :
    ∀ n j i, j ≤ i → i < j + n → (i, c) ∈ indexed j (List.replicate n c) := by
  intro n
  induction n with
  | zero => intro j i h1 h2; omega
  | succ n ih =>
    intro j i h1 h2
    simp only [List.replicate_succ, indexed]
    by_cases hij : i = j
    · subst hij; exact List.mem_cons_self _ _
    · exact List.mem_cons_of_mem _ (ih (j + 1) i (by omega) (by omega))

/-- Claim C1: the claim states that `recieveData` never stores a data byte
at an index at or beyond the 285-byte capacity of `msgBuffer` and rejects
or ignores overlong declared lengths.  The code has no such check: this
theorem evaluates the receiver on a frame with declared length 302
(valid header and token), after which the 286th data byte is stored at
index 285 — one past the end of the 285-byte buffer (indices 0..284). -/
theorem recieveData_stores_past_buffer :
    (285, 170) ∈ (recieveSteps recvInit
      (MESSAGE_START :: 0 :: 1 :: 46 :: TOKEN :: List.replicate 286 170)).writes ∧
    MSG_BUFFER_SIZE ≤ 285 := by
  constructor
  · rw [recieveSteps_header]
    have hlen : ((1 : Nat) <<< 8) ||| 46 = 302 := by decide
    rw [hlen]
    rw [recieveSteps_data_stay (List.replicate 286 170) 0
      (MESSAGE_START ^^^ 0 ^^^ 0 ^^^ 1 ^^^ 46 ^^^ TOKEN) 0 [] 302
      (by rw [List.length_replicate]; omega)
      (by intro m h1 h2; rw [List.length_replicate] at h2; omega)]
    simp only [List.nil_append]
    exact mem_indexed_replicate 170 286 0 285 (by omega) (by omega)
  · simp [MSG_BUFFER_SIZE]

/-- Claim C10: with a declared 16-bit length of 0, the data state stores
the next byte (index 0) instead of moving to the checksum state, consumes
exactly 65536 data bytes before the checksum byte is examined, and a
six-byte stream (header, token, checksum only) never yields a delivered
message. -/
theorem zero_length_consumes_65536 (seq c : Nat) (data short : List Nat)
    (hdata : data.length = 65536) (hshort : short.length ≤ 65535) :
    (recieveSteps recvInit
        (MESSAGE_START :: seq :: 0 :: 0 :: TOKEN :: data)).msgParseState = ST_GET_CHECK ∧
    (recieveSteps recvInit
        (MESSAGE_START :: seq :: 0 :: 0 :: TOKEN :: short)).msgParseState = ST_GET_DATA ∧
    (recieveSteps recvInit
        (MESSAGE_START :: seq :: 0 :: 0 :: TOKEN :: short)).writes = indexed 0 short ∧
    recieveRun recvInit [MESSAGE_START, seq, 0, 0, TOKEN, c] = none := by
  have h00 : ((0 : Nat) <<< 8) ||| 0 = 0 := by decide
  refine ⟨?_, ?_, ?_, ?_⟩
  · rw [recieveSteps_header, h00,
      recieveSteps_data_wrap0 data 0 (MESSAGE_START ^^^ 0 ^^^ seq ^^^ 0 ^^^ 0 ^^^ TOKEN)
        seq [] (by intro hnil; rw [hnil] at hdata; simp at hdata) (by omega)]
  · rw [recieveSteps_header, h00,
      recieveSteps_data_stay short 0 (MESSAGE_START ^^^ 0 ^^^ seq ^^^ 0 ^^^ 0 ^^^ TOKEN)
        seq [] 0 (by omega) (by intro m h1 h2; omega)]
  · rw [recieveSteps_header, h00,
      recieveSteps_data_stay short 0 (MESSAGE_START ^^^ 0 ^^^ seq ^^^ 0 ^^^ 0 ^^^ TOKEN)
        seq [] 0 (by omega) (by intro m h1 h2; omega)]
    simp
  · have hrun : recieveRun recvInit [MESSAGE_START, seq, 0, 0, TOKEN, c] =
        recieveRun ⟨ST_GET_DATA, MESSAGE_START ^^^ 0 ^^^ seq ^^^ 0 ^^^ 0 ^^^ TOKEN,
          0, (0 <<< 8) ||| 0, seq, []⟩ [c] := recieveRun_header seq 0 0 [c]
    rw [hrun, h00]
    simp [recieveRun, recieveStep, ST_GET_DATA, ST_START, ST_GET_SEQ_NUM,
      ST_MSG_SIZE_1, ST_MSG_SIZE_2, ST_GET_TOKEN, ST_PROCESS]

/-- Witness for C10 at a concrete stream. -/
theorem zero_length_consumes_65536_witness :
    (List.replicate 65536 (0 : Nat)).length = 65536 ∧ ([5] : List Nat).length ≤ 65535 ∧
    ((recieveSteps recvInit
        (MESSAGE_START :: 9 :: 0 :: 0 :: TOKEN :: List.replicate 65536 0)).msgParseState = ST_GET_CHECK ∧
      (recieveSteps recvInit
        (MESSAGE_START :: 9 :: 0 :: 0 :: TOKEN :: [5])).msgParseState = ST_GET_DATA ∧
      (recieveSteps recvInit
        (MESSAGE_START :: 9 :: 0 :: 0 :: TOKEN :: [5])).writes = indexed 0 [5] ∧
      recieveRun recvInit [MESSAGE_START, 9, 0, 0, TOKEN, 3] = none) :=
  ⟨by rw [List.length_replicate], by simp,
    zero_length_consumes_65536 9 3 (List.replicate 65536 0) [5]
      (by rw [List.length_replicate]) (by simp)⟩

/-- Claim C4: the erase cursor starts at 0 in a session; each
`programDevice` call issues a page erase at the erase cursor exactly when
the cursor is below `APP_END` and then advances it by one page, never
erases at or above `APP_END`, and two consecutive calls never erase the
same page (the second erase, if any, is one full page further). -/
theorem erase_cursor_policy :
    sessInit.eraseAddress = 0 ∧
    (∀ pa ea sz buf,
      (programDevice pa ea sz buf).pageErase =
          (if ea < APP_END then some ea else none) ∧
      (programDevice pa ea sz buf).eraseAddress =
          (if ea < APP_END then ea + SPM_PAGESIZE else ea)) ∧
    (∀ pa ea sz buf a,
      (programDevice pa ea sz buf).pageErase = some a → a < APP_END) ∧
    (∀ pa ea sz buf pa2 sz2 buf2 a b,
      (programDevice pa ea sz buf).pageErase = some a →
      (programDevice pa2 (programDevice pa ea sz buf).eraseAddress sz2 buf2).pageErase =
        some b →
      a / SPM_PAGESIZE ≠ b / SPM_PAGESIZE) := by
  have hchar : ∀ pa ea sz buf,
      (programDevice pa ea sz buf).pageErase =
          (if ea < APP_END then some ea else none) ∧
      (programDevice pa ea sz buf).eraseAddress =
          (if ea < APP_END then ea + SPM_PAGESIZE else ea) := by
    intro pa ea sz buf
    by_cases h : ea < APP_END <;> simp [programDevice, h]
  refine ⟨rfl, hchar, ?_, ?_⟩
  · intro pa ea sz buf a ha
    rw [(hchar pa ea sz buf).1] at ha
    by_cases h : ea < APP_END
    · rw [if_pos h] at ha
      cases Option.some.inj ha
      exact h
    · rw [if_neg h] at ha
      exact absurd ha (by simp)
  · intro pa ea sz buf pa2 sz2 buf2 a b ha hb
    rw [(hchar pa ea sz buf).1] at ha
    by_cases h : ea < APP_END
    · rw [if_pos h] at ha
      cases Option.some.inj ha
      rw [(hchar pa ea sz buf).2, if_pos h,
        (hchar pa2 (ea + SPM_PAGESIZE) sz2 buf2).1] at hb
      by_cases h2 : ea + SPM_PAGESIZE < APP_END
      · rw [if_pos h2] at hb
        cases Option.some.inj hb
        simp only [SPM_PAGESIZE]
        omega
      · rw [if_neg h2] at hb
        exact absurd hb (by simp)
    · rw [if_neg h] at ha
      exact absurd ha (by simp)

/-- Witness for C4: a fresh session erases page 0 on the first
program-flash call and page 1 (`0x100`) on the second: different pages. -/
theorem erase_cursor_policy_witness :
    (programDevice 0 0 256 (fun _ => 0)).pageErase = some 0 ∧
    (programDevice 0 (programDevice 0 0 256 (fun _ => 0)).eraseAddress 256
      (fun _ => 0)).pageErase = some 256 ∧
    (0 : Nat) / SPM_PAGESIZE ≠ 256 / SPM_PAGESIZE := by
  obtain ⟨h0, hchar, hlt, hpages⟩ := erase_cursor_policy
  have hA : (0 : Nat) < APP_END := by simp [APP_END, FLASHEND, BOOTSIZE]
  have hB : (256 : Nat) < APP_END := by simp [APP_END, FLASHEND, BOOTSIZE]
  have e1 : (programDevice 0 0 256 (fun _ => 0)).pageErase = some 0 := by
    rw [(hchar 0 0 256 (fun _ => 0)).1, if_pos hA]
  have eadv : (programDevice 0 0 256 (fun _ => 0)).eraseAddress = 256 := by
    rw [(hchar 0 0 256 (fun _ => 0)).2, if_pos hA]
    simp [SPM_PAGESIZE]
  have e2 : (programDevice 0 (programDevice 0 0 256 (fun _ => 0)).eraseAddress 256
      (fun _ => 0)).pageErase = some 256 := by
    rw [eadv, (hchar 0 256 256 (fun _ => 0)).1, if_pos hB]
  exact ⟨e1, e2, by
    have := hpages 0 0 256 (fun _ => 0) 0 256 (fun _ => 0) 0 256 e1 (by rw [← eadv] at e2; exact e2)
    exact this⟩

/-- Claim C7: a chip-erase request resets the erase cursor to 0, leaves
the program cursor unchanged and answers with a 2-byte payload whose
status byte (payload byte 1) is `STATUS_CMD_FAILED` — always, by design. -/
theorem chip_erase_fails_by_design (hw : Hw) (s : Sess) (buf : Nat → Nat)
    (h : buf 0 = CMD_CHIP_ERASE_ISP) :
    (interpret hw s buf).map
        (fun r => (r.sess.eraseAddress, r.sess.address, r.msgLength, r.buf 1)) =
      some (0, s.address, 2, STATUS_CMD_FAILED) := by
  simp [interpret, h, CMD_SIGN_ON, CMD_GET_PARAMETER, CMD_LEAVE_PROGMODE_ISP,
    CMD_SET_PARAMETER, CMD_ENTER_PROGMODE_ISP, CMD_LOAD_ADDRESS,
    CMD_PROGRAM_FLASH_ISP, CMD_READ_FLASH_ISP, CMD_READ_SIGNATURE_ISP,
    CMD_READ_LOCK_ISP, CMD_READ_FUSE_ISP, CMD_SPI_MULTI, CMD_CHIP_ERASE_ISP,
    updateBuf]

/-- Witness for C7 at a concrete chip-erase request. -/
theorem chip_erase_fails_by_design_witness :
    bufOf [CMD_CHIP_ERASE_ISP] 0 = CMD_CHIP_ERASE_ISP ∧
    (interpret hw0 ⟨1024, 512, 0⟩ (bufOf [CMD_CHIP_ERASE_ISP])).map
        (fun r => (r.sess.eraseAddress, r.sess.address, r.msgLength, r.buf 1)) =
      some (0, (⟨1024, 512, 0⟩ : Sess).address, 2, STATUS_CMD_FAILED) :=
  ⟨rfl, chip_erase_fails_by_design hw0 ⟨1024, 512, 0⟩ (bufOf [CMD_CHIP_ERASE_ISP]) rfl⟩

/-- Claim C3 (counterexample): the first payload byte of a response is not
a status byte: the handlers never overwrite `msgBuffer[0]`, so the
response's `body[0]` still holds the request opcode.  For a sign-on
request the transmitted `body[0]` is `CMD_SIGN_ON` (`0x01`), which is
neither `STATUS_CMD_OK` (`0x00`) nor `STATUS_CMD_FAILED` (`0xC0`); the
status `STATUS_CMD_OK` sits at `body[1]`. -/
theorem response_body0_is_opcode :
    (interpret hw0 sessInit (bufOf [CMD_SIGN_ON])).map (fun r => r.buf 0) =
      some CMD_SIGN_ON ∧
    CMD_SIGN_ON ≠ STATUS_CMD_OK ∧ CMD_SIGN_ON ≠ STATUS_CMD_FAILED ∧
    (interpret hw0 sessInit (bufOf [CMD_SIGN_ON])).map (fun r => r.buf 1) =
      some STATUS_CMD_OK := by
  refine ⟨rfl, by decide, by decide, rfl⟩

/-- Claim C3 (amended): for every request the interpreter handles, the
second payload byte `body[1]` of the response is a status byte: either
`STATUS_CMD_OK` or `STATUS_CMD_FAILED` (whenever the handler terminates
and a response is produced at all). -/
theorem response_status_at_buf1 (hw : Hw) (s : Sess) (buf : Nat → Nat) :
    ((interpret hw s buf).all
      fun r => (r.buf 1 == STATUS_CMD_OK) || (r.buf 1 == STATUS_CMD_FAILED)) = true := by
  by_cases h1 : buf 0 = CMD_SIGN_ON
  · unfold interpret
    rw [if_pos h1]
    simp [applyWrites, updateBuf, STATUS_CMD_OK]
  by_cases h2 : buf 0 = CMD_GET_PARAMETER
  · unfold interpret
    rw [if_neg h1, if_pos h2]
    simp [applyWrites, updateBuf, STATUS_CMD_OK]
  by_cases h3 : buf 0 = CMD_LEAVE_PROGMODE_ISP ∨ buf 0 = CMD_SET_PARAMETER ∨
      buf 0 = CMD_ENTER_PROGMODE_ISP
  · unfold interpret
    rw [if_neg h1, if_neg h2, if_pos h3]
    simp [updateBuf, STATUS_CMD_OK]
  by_cases h4 : buf 0 = CMD_LOAD_ADDRESS
  · unfold interpret
    rw [if_neg h1, if_neg h2, if_neg h3, if_pos h4]
    simp [updateBuf, STATUS_CMD_OK]
  by_cases h5 : buf 0 = CMD_PROGRAM_FLASH_ISP
  · unfold interpret
    rw [if_neg h1, if_neg h2, if_neg h3, if_neg h4, if_pos h5]
    cases hfill : (programDevice s.address s.eraseAddress ((buf 1) <<< 8 ||| buf 2)
        (fun k => buf (10 + k))).fill with
    | none => simp [hfill]
    | some res =>
      obtain ⟨addr2, fills⟩ := res
      simp [hfill, updateBuf, STATUS_CMD_OK]
  by_cases h6 : buf 0 = CMD_READ_FLASH_ISP
  · unfold interpret
    rw [if_neg h1, if_neg h2, if_neg h3, if_neg h4, if_neg h5, if_pos h6]
    cases hrd : readDevice hw.flash s.address ((buf 1) <<< 8 ||| buf 2) 1 with
    | none => simp [hrd]
    | some res =>
      obtain ⟨addr2, ws⟩ := res
      obtain ⟨tail, htail, hge⟩ := readLoop_writes_shape hw.flash 65536 s.address
        ((buf 1) <<< 8 ||| buf 2) (1 + 1) [(1, STATUS_CMD_OK)] (addr2, ws) hrd
      simp only at htail
      have hbuf1 : applyWrites buf ws 1 = STATUS_CMD_OK := by
        rw [htail, applyWrites_append,
          applyWrites_untouched 1 tail _ (fun q hq => by have := hge q hq; omega)]
        simp [applyWrites, updateBuf]
      simp [hrd, hbuf1, STATUS_CMD_OK]
  by_cases h7 : buf 0 = CMD_READ_SIGNATURE_ISP
  · unfold interpret
    rw [if_neg h1, if_neg h2, if_neg h3, if_neg h4, if_neg h5, if_neg h6, if_pos h7]
    simp [applyWrites, updateBuf, STATUS_CMD_OK]
  by_cases h8 : buf 0 = CMD_READ_LOCK_ISP
  · unfold interpret
    rw [if_neg h1, if_neg h2, if_neg h3, if_neg h4, if_neg h5, if_neg h6, if_neg h7,
      if_pos h8]
    simp [applyWrites, updateBuf, STATUS_CMD_OK]
  by_cases h9 : buf 0 = CMD_READ_FUSE_ISP
  · unfold interpret
    rw [if_neg h1, if_neg h2, if_neg h3, if_neg h4, if_neg h5, if_neg h6, if_neg h7,
      if_neg h8, if_pos h9]
    simp [applyWrites, updateBuf, STATUS_CMD_OK]
  by_cases h10 : buf 0 = CMD_SPI_MULTI
  · unfold interpret
    rw [if_neg h1, if_neg h2, if_neg h3, if_neg h4, if_neg h5, if_neg h6, if_neg h7,
      if_neg h8, if_neg h9, if_pos h10]
    simp [applyWrites, updateBuf, STATUS_CMD_OK]
  · unfold interpret
    rw [if_neg h1, if_neg h2, if_neg h3, if_neg h4, if_neg h5, if_neg h6, if_neg h7,
      if_neg h8, if_neg h9, if_neg h10]
    simp [updateBuf, STATUS_CMD_FAILED]

/-- Variant of the packing lemma for a product on the left. -/
theorem mul_pow_or_eq_add (a b k : Nat) (hb : b < 2 ^ k) :
    (a * 2 ^ k) ||| b = a * 2 ^ k + b := by
  rw [Nat.mul_comm, ← Nat.mul_add_lt_is_or hb, Nat.mul_comm]

/-- The 24-bit word-address packing used by `CMD_LOAD_ADDRESS`. -/
theorem low24_value (b2 b3 b4 : Nat) (h3 : b3 < 256) (h4 : b4 < 256) :
    (b2 <<< 16) ||| (b3 <<< 8) ||| b4 = b2 * 2 ^ 16 + b3 * 2 ^ 8 + b4 := by
  have e1 : (b3 <<< 8) = b3 * 2 ^ 8 := Nat.shiftLeft_eq b3 8
  have e2 : (b2 <<< 16) ||| (b3 <<< 8) = b2 * 2 ^ 16 + b3 * 2 ^ 8 := by
    rw [e1, shiftLeft_or_eq_add b2 (b3 * 2 ^ 8) 16 (by omega)]
  rw [e2]
  have e3 : b2 * 2 ^ 16 + b3 * 2 ^ 8 = (b2 * 2 ^ 8 + b3) * 2 ^ 8 := by ring
  rw [e3, mul_pow_or_eq_add _ _ 8 (by omega)]

/-- Claim C6 (counterexample): the stored program cursor is not twice the
full 32-bit big-endian word address.  For payload bytes `01 00 00 00`
(word address `0x01000000`) the code stores `0x01000000`, not
`0x02000000`: the `<< 1` applies only to the low 24 bits, the top byte is
or-ed in undoubled. -/
theorem loadAddress_top_byte_not_doubled :
    loadAddress 1 0 0 0 = 16777216 ∧
    2 * (1 * 2 ^ 24 + (0 * 2 ^ 16 + 0 * 2 ^ 8 + 0)) = 33554432 ∧
    (16777216 : Nat) ≠ 33554432 ∧
    (interpret hw0 sessInit (bufOf [CMD_LOAD_ADDRESS, 1, 0, 0, 0])).map
        (fun r => r.sess.address) = some 16777216 := by
  refine ⟨by decide, by norm_num, by decide, rfl⟩

/-- Claim C6 (amended): on extended-addressing targets the stored cursor
is the bitwise or of the top payload byte placed (undoubled) at bits
24-31 with twice the 24-bit word address from the remaining bytes; when
the top byte is 0 this is exactly twice the word address.  On small
targets the cursor is twice the 16-bit word address whenever that word
address is below `2^14` (the range in which the AVR's 16-bit `int`
arithmetic does not overflow). -/
theorem loadAddress_value (b1 b2 b3 b4 : Nat)
    (h1 : b1 < 256) (h2 : b2 < 256) (h3 : b3 < 256) (h4 : b4 < 256) :
    loadAddress b1 b2 b3 b4 =
      (b1 * 2 ^ 24) ||| (2 * (b2 * 2 ^ 16 + b3 * 2 ^ 8 + b4)) ∧
    (b1 = 0 → loadAddress b1 b2 b3 b4 = 2 * (b2 * 2 ^ 16 + b3 * 2 ^ 8 + b4)) ∧
    (b3 * 2 ^ 8 + b4 < 2 ^ 14 → loadAddressSmall b3 b4 = 2 * (b3 * 2 ^ 8 + b4)) := by
  have hlow : (b2 <<< 16) ||| (b3 <<< 8) ||| b4 = b2 * 2 ^ 16 + b3 * 2 ^ 8 + b4 :=
    low24_value b2 b3 b4 h3 h4
  have hlowlt : b2 * 2 ^ 16 + b3 * 2 ^ 8 + b4 < 2 ^ 24 := by omega
  have hshift : ((b2 <<< 16) ||| (b3 <<< 8) ||| b4) <<< 1 =
      2 * (b2 * 2 ^ 16 + b3 * 2 ^ 8 + b4) := by
    rw [hlow, Nat.shiftLeft_eq]
    ring
  have hmod1 : (2 * (b2 * 2 ^ 16 + b3 * 2 ^ 8 + b4)) % 4294967296 =
      2 * (b2 * 2 ^ 16 + b3 * 2 ^ 8 + b4) := by
    apply Nat.mod_eq_of_lt
    omega
  have hmain : loadAddress b1 b2 b3 b4 =
      (b1 * 2 ^ 24) ||| (2 * (b2 * 2 ^ 16 + b3 * 2 ^ 8 + b4)) := by
    unfold loadAddress
    rw [hshift, hmod1, Nat.shiftLeft_eq]
    apply Nat.mod_eq_of_lt
    exact @Nat.or_lt_two_pow _ _ 32 (by omega) (by omega)
  refine ⟨hmain, ?_, ?_⟩
  · intro hb1
    rw [hmain, hb1]
    simp
  · intro hsmall
    unfold loadAddressSmall
    have e1 : (b3 <<< 8) ||| b4 = b3 * 2 ^ 8 + b4 := by
      rw [Nat.shiftLeft_eq]
      exact mul_pow_or_eq_add b3 b4 8 (by omega)
    have e2 : ((b3 <<< 8) ||| b4) <<< 1 = 2 * (b3 * 2 ^ 8 + b4) := by
      rw [e1, Nat.shiftLeft_eq]
      ring
    rw [e2]
    have hlt : 2 * (b3 * 2 ^ 8 + b4) < 32768 := by omega
    rw [Nat.mod_eq_of_lt (by omega)]
    rw [if_pos hlt]

/-- Witness for the amended C6 at concrete payload bytes. -/
theorem loadAddress_value_witness :
    loadAddress 2 1 1 2 = (2 * 2 ^ 24) ||| (2 * (1 * 2 ^ 16 + 1 * 2 ^ 8 + 2)) ∧
    (2 = 0 → loadAddress 2 1 1 2 = 2 * (1 * 2 ^ 16 + 1 * 2 ^ 8 + 2)) ∧
    (1 * 2 ^ 8 + 2 < 2 ^ 14 → loadAddressSmall 1 2 = 2 * (1 * 2 ^ 8 + 2)) :=
  loadAddress_value 2 1 1 2 (by decide) (by decide) (by decide) (by decide)

/-- A read-flash request whose decoded size is 0 advances the program
cursor by 65536 and declares a payload length of 3 (the `uint16_t` size
wraps in the do-while decrement of `readDevice`). -/
theorem interpret_read_flash_size0 (hw : Hw) (s : Sess) (buf : Nat → Nat)
    (hop : buf 0 = CMD_READ_FLASH_ISP) (hsz : ((buf 1) <<< 8) ||| buf 2 = 0) :
    (interpret hw s buf).map (fun r => (r.sess.address, r.msgLength)) =
      some (s.address + 65536, 3) := by
  have hrd : readDevice hw.flash s.address 0 1 =
      some (s.address + 65536,
        [(1, STATUS_CMD_OK)] ++ readChunk hw.flash s.address 2 32768) :=
    readLoop_zero hw.flash s.address 2 [(1, STATUS_CMD_OK)]
  unfold interpret
  rw [if_neg (by rw [hop]; decide), if_neg (by rw [hop]; decide),
    if_neg (by rw [hop]; decide), if_neg (by rw [hop]; decide),
    if_neg (by rw [hop]; decide), if_pos hop, hsz, hrd]
  simp only [Option.map_some']

/-- Claim C2: the claim states that a read-flash of decoded size 0 right
after a load-address leaves the cursor unchanged and the response
well-formed.  In the code the `do-while` in `readDevice` decrements the
`uint16_t` size before testing it, so size 0 wraps to 65534 and the loop
runs 32768 times: after load-address of word address `0x0100` (cursor
512), a read-flash of size 0 leaves the cursor at 66048 (= 512 + 65536),
stores 65537 bytes through the 285-byte buffer, and declares a payload
length of 3. -/
theorem read_flash_size0_mutates_cursor :
    (interpret hw0 sessInit (bufOf [CMD_LOAD_ADDRESS, 0, 0, 1, 0])).map
        (fun r => r.sess.address) = some 512 ∧
    (interpret hw0 ⟨512, 0, 0⟩ (bufOf [CMD_READ_FLASH_ISP, 0, 0])).map
        (fun r => (r.sess.address, r.msgLength)) = some (66048, 3) ∧
    (readDevice (fun _ => 0) 512 0 1).map (fun res => res.2.length) = some 65537 ∧
    (512 : Nat) ≠ 66048 := by
  have hrd : readDevice (fun _ => 0) 512 0 1 =
      some (512 + 65536, [(1, STATUS_CMD_OK)] ++ readChunk (fun _ => 0) 512 2 32768) :=
    readLoop_zero (fun _ => 0) 512 2 [(1, STATUS_CMD_OK)]
  refine ⟨rfl, ?_, ?_, by decide⟩
  · have h := interpret_read_flash_size0 hw0 ⟨512, 0, 0⟩ (bufOf [CMD_READ_FLASH_ISP, 0, 0])
      rfl (by decide)
    rw [h]
  · rw [hrd]
    simp only [Option.map_some', List.singleton_append]
    rw [List.length_cons, readChunk_length]

/-- Claim C9 (counterexample): for a read-flash of size 0 the handler does
not write only positions 1 through 1: it stores at every position 1
through 65537, in particular at position 2. -/
theorem read_flash_size0_write_positions :
    (readDevice (fun _ => 0) 0 0 1).map (fun res => res.2.map Prod.fst) =
      some (List.range' 1 65537) ∧
    2 ∈ List.range' 1 65537 ∧ ¬(2 ≤ 0 + 1) := by
  have hrd : readDevice (fun _ => 0) 0 0 1 =
      some (0 + 65536, [(1, STATUS_CMD_OK)] ++ readChunk (fun _ => 0) 0 2 32768) :=
    readLoop_zero (fun _ => 0) 0 2 [(1, STATUS_CMD_OK)]
  refine ⟨?_, by rw [List.mem_range'_1]; omega, by decide⟩
  have hn : (65537 : Nat) = 65536 + 1 := by norm_num
  rw [hrd, hn, List.range'_succ]
  simp only [Option.map_some', Option.some.injEq, List.singleton_append]
  rw [List.map_cons, readChunk_map_fst]

/-- Claim C9 (amended): for a read-flash request of positive even size
`n = 2*k` small enough not to wrap the `uint16_t` length field
(`k ≤ 32766`), the handler stores exactly at response positions 1
through `n+1` (one OK status byte then the `n` data bytes), the declared
payload length is `n+3`, the cursor advances by `n`, and position `n+2`
is written by nobody: the response byte there is whatever the shared
buffer held before. -/
theorem read_flash_writes_span (flash : Nat → Nat) (addr k lk fl fh fe ea isp : Nat)
    (buf : Nat → Nat) (hk1 : 0 < k) (hk2 : k ≤ 32766)
    (hop : buf 0 = CMD_READ_FLASH_ISP) (hsz : ((buf 1) <<< 8) ||| buf 2 = 2 * k) :
    (readDevice flash addr (2 * k) 1).map (fun res => (res.1, res.2.map Prod.fst)) =
      some (addr + 2 * k, List.range' 1 (2 * k + 1)) ∧
    (2 * k + 2) ∉ List.range' 1 (2 * k + 1) ∧
    (interpret ⟨flash, lk, fl, fh, fe⟩ ⟨addr, ea, isp⟩ buf).map
        (fun r => (r.msgLength, r.sess.address, r.buf (2 * k + 2))) =
      some (2 * k + 3, addr + 2 * k, buf (2 * k + 2)) := by
  have hrd : readDevice flash addr (2 * k) 1 =
      some (addr + 2 * k, [(1, STATUS_CMD_OK)] ++ readChunk flash addr 2 k) :=
    readLoop_even flash k 65536 addr 2 [(1, STATUS_CMD_OK)] hk1 (by omega) (by omega)
  have huntouched : ∀ q ∈ ((1 : Nat), STATUS_CMD_OK) :: readChunk flash addr 2 k,
      q.1 ≠ 2 * k + 2 := by
    intro q hq
    rcases List.mem_cons.mp hq with rfl | hq2
    · show (1 : Nat) ≠ 2 * k + 2
      omega
    · have hmem : q.1 ∈ (readChunk flash addr 2 k).map Prod.fst :=
        List.mem_map_of_mem Prod.fst hq2
      rw [readChunk_map_fst] at hmem
      rw [List.mem_range'_1] at hmem
      omega
  refine ⟨?_, ?_, ?_⟩
  · rw [hrd]
    simp only [Option.map_some', Option.some.injEq]
    refine Prod.ext rfl ?_
    rw [List.range'_succ]
    simp only [List.map_append, List.map_cons, List.map_nil, readChunk_map_fst,
      List.singleton_append]
  · rw [List.mem_range'_1]
    omega
  · unfold interpret
    rw [if_neg (by rw [hop]; decide), if_neg (by rw [hop]; decide),
      if_neg (by rw [hop]; decide), if_neg (by rw [hop]; decide),
      if_neg (by rw [hop]; decide), if_pos hop]
    simp only [hsz]
    rw [hrd]
    simp only [Option.map_some', Option.some.injEq]
    have hmod : (2 * k + 3) % 65536 = 2 * k + 3 := by omega
    have hbuf : applyWrites buf
        (((1 : Nat), STATUS_CMD_OK) :: readChunk flash addr 2 k) (2 * k + 2) =
        buf (2 * k + 2) :=
      applyWrites_untouched (2 * k + 2) _ buf huntouched
    simp [hmod, hbuf]

/-- Claim C8 (counterexample): with the watchdog-reset flag set but an
erased first flash word (`0xFFFF`), `appStart` returns and `main` falls
through into serial initialization, the boot wait and the protocol loop —
the claim's unconditional "never enters the serial initialization" is
false for this reset cause. -/
theorem wdt_blank_flash_enters_loop :
    (8 : Nat) &&& (1 <<< 3) ≠ 0 ∧
    bootTrace 8 0xFFFF true =
      [BootEvent.serialInit, BootEvent.bootWait, BootEvent.protocolLoop] ∧
    BootEvent.serialInit ∈ bootTrace 8 0xFFFF true ∧
    bootTrace 8 0xFFFF true ≠ [BootEvent.wdtAppJump] := by
  refine ⟨by decide, by decide, by decide, by decide⟩

/-- Claim C8 (amended): if the watchdog-reset flag is set and the first
flash word is not the erased pattern `0xFFFF`, the firmware jumps
directly to the application: the boot trace is exactly the watchdog
application jump and contains neither serial initialization, nor the
boot-timeout wait, nor the protocol loop; the jump is taken only after
the erased-flash check. -/
theorem wdt_reset_skips_protocol (resetSource word0 : Nat) (hostActive : Bool)
    (hwdrf : resetSource &&& (1 <<< 3) ≠ 0) (hvalid : word0 ≠ 0xFFFF) :
    bootTrace resetSource word0 hostActive = [BootEvent.wdtAppJump] ∧
    BootEvent.serialInit ∉ bootTrace resetSource word0 hostActive ∧
    BootEvent.bootWait ∉ bootTrace resetSource word0 hostActive ∧
    BootEvent.protocolLoop ∉ bootTrace resetSource word0 hostActive := by
  have htrace : bootTrace resetSource word0 hostActive = [BootEvent.wdtAppJump] := by
    unfold bootTrace
    rw [if_pos (by simpa using hwdrf)]
    rw [if_pos (by simp [appStartJumps, hvalid])]
  refine ⟨htrace, ?_, ?_, ?_⟩ <;> rw [htrace] <;> simp

/-- Witness for the amended C8: a watchdog reset with a programmed
application at address 0. -/
theorem wdt_reset_skips_protocol_witness :
    ((8 : Nat) &&& (1 <<< 3) ≠ 0) ∧ ((0x1234 : Nat) ≠ 0xFFFF) ∧
    (bootTrace 8 0x1234 true = [BootEvent.wdtAppJump] ∧
      BootEvent.serialInit ∉ bootTrace 8 0x1234 true ∧
      BootEvent.bootWait ∉ bootTrace 8 0x1234 true ∧
      BootEvent.protocolLoop ∉ bootTrace 8 0x1234 true) :=
  ⟨by decide, by decide, wdt_reset_skips_protocol 8 0x1234 true (by decide) (by decide)⟩

/-- Witness for the amended C9 at a concrete two-byte read. -/
theorem read_flash_writes_span_witness :
    (0 : Nat) < 1 ∧ (1 : Nat) ≤ 32766 ∧
    bufOf [CMD_READ_FLASH_ISP, 0, 2] 0 = CMD_READ_FLASH_ISP ∧
    ((bufOf [CMD_READ_FLASH_ISP, 0, 2] 1) <<< 8) ||| bufOf [CMD_READ_FLASH_ISP, 0, 2] 2 = 2 * 1 ∧
    ((readDevice (fun _ => 0) 0 (2 * 1) 1).map (fun res => (res.1, res.2.map Prod.fst)) =
        some (0 + 2 * 1, List.range' 1 (2 * 1 + 1)) ∧
      (2 * 1 + 2) ∉ List.range' 1 (2 * 1 + 1) ∧
      (interpret ⟨fun _ => 0, 0, 0, 0, 0⟩ ⟨0, 0, 0⟩ (bufOf [CMD_READ_FLASH_ISP, 0, 2])).map
          (fun r => (r.msgLength, r.sess.address, r.buf (2 * 1 + 2))) =
        some (2 * 1 + 3, 0 + 2 * 1, bufOf [CMD_READ_FLASH_ISP, 0, 2] (2 * 1 + 2))) :=
  ⟨by decide, by decide, rfl, by decide,
    read_flash_writes_span (fun _ => 0) 0 1 0 0 0 0 0 0 (bufOf [CMD_READ_FLASH_ISP, 0, 2])
      (by decide) (by decide) rfl (by decide)⟩
